import Mathlib

/-!
Verification of the core OMS engine (multi-exchange trading hot path).

Shallow embedding of the C++ sources:
  src/core/include/ring_buffer.h            (SPSC ring buffer)
  src/core/src/risk/risk_engine.cpp         (pre-trade risk checks)
  src/core/src/strategies/arbitrage_detector.cpp
  src/core/src/strategies/market_maker.cpp
  src/core/engine/order_manager.cpp

Modelling conventions:
  - double  ->  Rat (exact arithmetic; the algorithmic comparisons and
    guards of the source are all order comparisons and field copies);
  - size_t / uint64_t arithmetic is Nat with explicit `% 2 ^ 64` where
    wraparound can matter;
  - `x & (capacity - 1)` on a power-of-two capacity equals
    `x % capacity`; the embedding uses `% capacity` directly and keeps
    head/tail always below capacity, exactly as the source stores them
    (the source stores already-masked indices);
  - stateful methods become functions `State -> args -> State × result`;
  - wall-clock reads (steady_clock.now()) become explicit parameters.
-/

/-- Side enumeration from src/core/include/types.h. -/
inductive Side : Type where
  | BUY : Side
  | SELL : Side
deriving DecidableEq, Repr, Inhabited

/-- OrderStatus enumeration from src/core/include/types.h. -/
inductive OrderStatus : Type where
  | NEW | PARTIALLY_FILLED | FILLED | CANCELED | REJECTED | EXPIRED
deriving DecidableEq, Repr, Inhabited

/-- ExchangeType enumeration from src/core/include/types.h. -/
inductive ExchangeType : Type where
  | BINANCE_SPOT | BINANCE_FUTURES | BYBIT_SPOT | BYBIT_FUTURES
  | OKX_SPOT | OKX_FUTURES | UPBIT
deriving DecidableEq, Repr, Inhabited

/-- SPSC ring buffer state, from src/core/include/ring_buffer.h.
The source stores `head` and `tail` already masked (each store is
`(x + 1) & mask_`), so both indices always lie in `[0, capacity)`.
The backing array `buffer_` is modelled as a total function on indices. -/
structure RingBuffer (α : Type) where
  capacity : Nat
  buffer : Nat → α
  head : Nat
  tail : Nat

namespace RingBuffer

/-- Well-formedness: positive capacity and masked indices, as established
by the constructor (head = tail = 0) and preserved by push/pop. -/
def WF {α : Type} (r : RingBuffer α) : Prop :=
  0 < r.capacity ∧ r.head < r.capacity ∧ r.tail < r.capacity

instance {α : Type} (r : RingBuffer α) : Decidable (WF r) := by
  unfold WF; infer_instance

/-- RingBuffer::push.  `next_head = (head + 1) & mask`; full iff
`next_head == tail`; on success writes the slot at the old head and
publishes the new head. -/
def push {α : Type} (r : RingBuffer α) (item : α) : RingBuffer α × Bool :=
  let next_head := (r.head + 1) % r.capacity
  if next_head = r.tail then
    (r, false)
  else
    ({ r with buffer := fun i => if i = r.head then item else r.buffer i,
              head := next_head }, true)

/-- RingBuffer::pop.  Empty iff `tail == head`; on success reads the slot
at the old tail and publishes `(tail + 1) & mask`. -/
def pop {α : Type} (r : RingBuffer α) : RingBuffer α × Option α :=
  if r.tail = r.head then
    (r, none)
  else
    ({ r with tail := (r.tail + 1) % r.capacity }, some (r.buffer r.tail))

/-- RingBuffer::size: `(head - tail) & mask`.  On size_t the subtraction
wraps modulo 2^64; masked with `capacity - 1` (capacity a power of two
dividing 2^64, head and tail below capacity) the result equals
`(head + capacity - tail) % capacity`. -/
def size {α : Type} (r : RingBuffer α) : Nat :=
  (r.head + r.capacity - r.tail) % r.capacity

/-- RingBuffer::empty: `head == tail`. -/
def isEmpty {α : Type} (r : RingBuffer α) : Bool :=
  r.head = r.tail

/-- next_power_of_two from ring_buffer.h: decrement, six or-shift
smears, increment, all on size_t (modelled modulo 2^64). -/
def next_power_of_two (n : Nat) : Nat :=
  let n := (n + (2 ^ 64 - 1)) % 2 ^ 64
  let n := n ||| (n >>> 1)
  let n := n ||| (n >>> 2)
  let n := n ||| (n >>> 4)
  let n := n ||| (n >>> 8)
  let n := n ||| (n >>> 16)
  let n := n ||| (n >>> 32)
  (n + 1) % 2 ^ 64

/-- RingBuffer constructor: capacity rounded up to the next power of two,
zeroed (default) slots, head = tail = 0. -/
def create {α : Type} [Inhabited α] (capacity : Nat) : RingBuffer α :=
  { capacity := next_power_of_two capacity
    buffer := fun _ => default
    head := 0
    tail := 0 }

/-- Abstraction: the queue contents, oldest first, as read out from
tail to head. -/
def queueList {α : Type} (r : RingBuffer α) : List α :=
  (List.range (size r)).map (fun i => r.buffer ((r.tail + i) % r.capacity))

/-- Sequence of pushes; `some` final state when every push succeeded. -/
def pushList {α : Type} (r : RingBuffer α) : List α → Option (RingBuffer α)
  | [] => some r
  | x :: xs =>
    match push r x with
    | (r', true) => pushList r' xs
    | (_, false) => none

/-- Sequence of n pops, collecting each pop's result in order. -/
def popList {α : Type} (r : RingBuffer α) : Nat → RingBuffer α × List (Option α)
  | 0 => (r, [])
  | n + 1 =>
    let p := pop r
    let rest := popList p.1 n
    (rest.1, p.2 :: rest.2)

/-- Helper resolving a modulus of a value known to be below twice the
modulus: it is the value itself or the value less the modulus. -/
theorem mod_two_mul_cases (x c : Nat) (hx : x < 2 * c) :
    x % c = if x < c then x else x - c := by
  split
  · exact Nat.mod_eq_of_lt (by assumption)
  · rename_i hge
    push_neg at hge
    rw [Nat.mod_eq_sub_mod hge, Nat.mod_eq_of_lt (by omega)]

/-- Size is bounded by capacity minus one: one slot stays sacrificed. -/
theorem size_le_capacity_sub_one {α : Type} (r : RingBuffer α) (hwf : WF r) :
    size r ≤ r.capacity - 1 := by
  obtain ⟨hc, -, -⟩ := hwf
  have := Nat.mod_lt (r.head + r.capacity - r.tail) hc
  unfold size
  omega

/-- Push reports failure exactly when the buffer holds capacity − 1
items (the full condition `(head + 1) & mask == tail`). -/
theorem push_fails_iff_full {α : Type} (r : RingBuffer α) (x : α) (hwf : WF r) :
    (push r x).2 = false ↔ size r = r.capacity - 1 := by
  obtain ⟨hc, hh, ht⟩ := hwf
  simp only [push, size]
  rw [mod_two_mul_cases (r.head + 1) r.capacity (by omega),
      mod_two_mul_cases (r.head + r.capacity - r.tail) r.capacity (by omega)]
  split_ifs <;> simp <;> omega

/-- Pop reports failure exactly when the buffer is empty
(`tail == head`). -/
theorem pop_fails_iff_empty {α : Type} (r : RingBuffer α) :
    (pop r).2 = none ↔ r.tail = r.head := by
  unfold pop
  split
  · simp_all
  · simp_all

/-- Size is zero exactly when head equals tail. -/
theorem size_eq_zero_iff {α : Type} (r : RingBuffer α) (hwf : WF r) :
    size r = 0 ↔ r.head = r.tail := by
  obtain ⟨hc, hh, ht⟩ := hwf
  unfold size
  rw [mod_two_mul_cases (r.head + r.capacity - r.tail) r.capacity (by omega)]
  split <;> omega

/-- Reading slot `(tail + s) % capacity` where s is the size lands on
the head slot. -/
theorem index_at_size (c t h : Nat) (hc : 0 < c) (ht : t < c) (hh : h < c) :
    (t + (h + c - t) % c) % c = h := by
  rw [mod_two_mul_cases (h + c - t) c (by omega)]
  split
  · rw [mod_two_mul_cases _ c (by omega)]
    split <;> omega
  · rw [mod_two_mul_cases _ c (by omega)]
    split <;> omega

/-- Reading a slot strictly before the head slot never lands on the
head slot. -/
theorem index_before_size (c t h i : Nat) (hc : 0 < c) (ht : t < c) (hh : h < c)
    (hi : i < (h + c - t) % c) : (t + i) % c ≠ h := by
  rw [mod_two_mul_cases (h + c - t) c (by omega)] at hi
  have hic : i < c := by split_ifs at hi <;> omega
  rw [mod_two_mul_cases (t + i) c (by omega)]
  split_ifs at hi ⊢ <;> omega

/-- A successful push rewrites the ring explicitly: slot at the old head
written, head advanced by one modulo capacity. -/
theorem push_not_full {α : Type} (r : RingBuffer α) (x : α) (hwf : WF r)
    (hfull : size r ≠ r.capacity - 1) :
    push r x = ({ r with buffer := fun i => if i = r.head then x else r.buffer i,
                         head := (r.head + 1) % r.capacity }, true) := by
  obtain ⟨hc, hh, ht⟩ := hwf
  unfold push
  rw [if_neg]
  intro heq
  apply hfull
  unfold size
  rw [mod_two_mul_cases (r.head + 1) r.capacity (by omega)] at heq
  rw [mod_two_mul_cases (r.head + r.capacity - r.tail) r.capacity (by omega)]
  split_ifs at heq ⊢ <;> omega

/-- A successful push preserves well-formedness and grows the size by
one. -/
theorem size_push {α : Type} (r : RingBuffer α) (x : α) (hwf : WF r)
    (hfull : size r ≠ r.capacity - 1) :
    WF (push r x).1 ∧ size (push r x).1 = size r + 1 := by
  obtain ⟨hc, hh, ht⟩ := hwf
  rw [push_not_full r x ⟨hc, hh, ht⟩ hfull]
  unfold size at hfull ⊢
  constructor
  · exact ⟨hc, Nat.mod_lt _ hc, ht⟩
  · simp only
    rw [mod_two_mul_cases (r.head + 1) r.capacity (by omega)] at *
    rw [mod_two_mul_cases (r.head + r.capacity - r.tail) r.capacity (by omega)] at hfull ⊢
    split_ifs at hfull ⊢ <;>
      first
        | omega
        | (rw [mod_two_mul_cases _ r.capacity (by omega)]; split_ifs <;> omega)

/-- A successful push appends the pushed element to the abstract queue
contents. -/
theorem queueList_push {α : Type} (r : RingBuffer α) (x : α) (hwf : WF r)
    (hfull : size r ≠ r.capacity - 1) :
    queueList (push r x).1 = queueList r ++ [x] := by
  obtain ⟨hc, hh, ht⟩ := hwf
  have hsz := (size_push r x ⟨hc, hh, ht⟩ hfull).2
  rw [push_not_full r x ⟨hc, hh, ht⟩ hfull] at hsz ⊢
  unfold queueList
  dsimp only at hsz ⊢
  rw [hsz, List.range_succ, List.map_append, List.map_singleton]
  congr 1
  · apply List.map_congr_left
    intro i hi
    simp only [List.mem_range] at hi
    have hne : (r.tail + i) % r.capacity ≠ r.head :=
      index_before_size r.capacity r.tail r.head i hc ht hh (by simpa [size] using hi)
    simp only [hne, if_false]
  · simp only [size]
    rw [index_at_size r.capacity r.tail r.head hc ht hh]
    simp

/-- A pop from a non-empty ring returns the slot at the old tail and
advances the tail; the abstract queue loses its first element. -/
theorem pop_nonempty {α : Type} (r : RingBuffer α) (hwf : WF r)
    (hne : r.tail ≠ r.head) :
    pop r = ({ r with tail := (r.tail + 1) % r.capacity }, some (r.buffer r.tail)) := by
  unfold pop
  rw [if_neg hne]

/-- Popping a non-empty ring keeps well-formedness and shrinks the size
by one. -/
theorem size_pop {α : Type} (r : RingBuffer α) (hwf : WF r)
    (hne : r.tail ≠ r.head) :
    WF (pop r).1 ∧ size (pop r).1 + 1 = size r := by
  obtain ⟨hc, hh, ht⟩ := hwf
  rw [pop_nonempty r ⟨hc, hh, ht⟩ hne]
  unfold size
  constructor
  · exact ⟨hc, hh, Nat.mod_lt _ hc⟩
  · simp only
    rw [mod_two_mul_cases (r.tail + 1) r.capacity (by omega)]
    rw [mod_two_mul_cases (r.head + r.capacity - r.tail) r.capacity (by omega)]
    split_ifs <;>
      first
        | omega
        | (rw [mod_two_mul_cases _ r.capacity (by omega)]; split_ifs <;> omega)

/-- Abstract queue contents of a non-empty ring: first the slot at the
tail, then the contents after the pop. -/
theorem queueList_pop {α : Type} (r : RingBuffer α) (hwf : WF r)
    (hne : r.tail ≠ r.head) :
    queueList r = r.buffer r.tail :: queueList (pop r).1 := by
  obtain ⟨hc, hh, ht⟩ := hwf
  have hsz := (size_pop r ⟨hc, hh, ht⟩ hne).2
  rw [pop_nonempty r ⟨hc, hh, ht⟩ hne] at hsz ⊢
  unfold queueList
  rw [← hsz, List.range_succ_eq_map, List.map_cons, List.map_map]
  congr 1
  · rw [Nat.add_zero, Nat.mod_eq_of_lt ht]
  · apply List.map_congr_left
    intro i hi
    simp only [Function.comp_apply]
    congr 1
    rw [Nat.mod_add_mod, Nat.add_assoc, Nat.add_comm 1 i]

/-- The abstract queue has exactly `size` elements. -/
theorem queueList_length {α : Type} (r : RingBuffer α) :
    (queueList r).length = size r := by
  simp [queueList]

/-- A sequence of successful pushes appends the pushed list to the
abstract queue contents. -/
theorem pushList_spec {α : Type} (S : List α) :
    ∀ (r r' : RingBuffer α), WF r → pushList r S = some r' →
      WF r' ∧ queueList r' = queueList r ++ S := by
  induction S with
  | nil =>
    intro r r' hwf hp
    simp only [pushList, Option.some.injEq] at hp
    subst hp
    exact ⟨hwf, by simp⟩
  | cons x xs ih =>
    intro r r' hwf hp
    unfold pushList at hp
    rcases hb : push r x with ⟨r1, b⟩
    rw [hb] at hp
    cases b with
    | false => simp at hp
    | true =>
      have hfull : size r ≠ r.capacity - 1 := by
        intro hf
        have := (push_fails_iff_full r x hwf).mpr hf
        rw [hb] at this
        simp at this
      have hpush := push_not_full r x hwf hfull
      have hr1 : r1 = (push r x).1 := by rw [hb]
      have hwf1 : WF r1 := by rw [hr1]; exact (size_push r x hwf hfull).1
      obtain ⟨hwf', hq⟩ := ih r1 r' hwf1 hp
      refine ⟨hwf', ?_⟩
      rw [hq, hr1, queueList_push r x hwf hfull, List.append_assoc]
      rfl

/-- Popping exactly `size` times returns the abstract queue contents,
each wrapped in `some`. -/
theorem popList_spec {α : Type} (n : Nat) :
    ∀ (r : RingBuffer α), WF r → size r = n →
      (popList r n).2 = (queueList r).map some := by
  induction n with
  | zero =>
    intro r hwf hs
    have : queueList r = [] := by
      apply List.eq_nil_of_length_eq_zero
      rw [queueList_length, hs]
    simp [popList, this]
  | succ n ih =>
    intro r hwf hs
    have hne : r.tail ≠ r.head := by
      intro h
      rw [(size_eq_zero_iff r hwf).mpr h.symm] at hs
      omega
    have hpop := size_pop r hwf hne
    have hq := queueList_pop r hwf hne
    unfold popList
    simp only [pop_nonempty r hwf hne] at hpop hq ⊢
    rw [ih _ hpop.1 (by omega), hq]
    simp [pop_nonempty r hwf hne]

end RingBuffer

/-- States of the literal ring-wrap scenario: a ring of requested
capacity 4 (rounded to 4), then a sequence of pushes and pops. -/
def wrapR0 : RingBuffer Nat := RingBuffer.create 4

/-- Ring after pushing 1. -/
def wrapR1 : RingBuffer Nat := (RingBuffer.push wrapR0 1).1

/-- Ring after pushing 1, 2. -/
def wrapR2 : RingBuffer Nat := (RingBuffer.push wrapR1 2).1

/-- Ring after pushing 1, 2, 3. -/
def wrapR3 : RingBuffer Nat := (RingBuffer.push wrapR2 3).1

/-- Ring after the fourth push attempt (which fails, leaving the ring
as it was). -/
def wrapR4 : RingBuffer Nat := (RingBuffer.push wrapR3 4).1

/-- Ring after one pop. -/
def wrapR5 : RingBuffer Nat := (RingBuffer.pop wrapR4).1

/-- Ring after two pops. -/
def wrapR6 : RingBuffer Nat := (RingBuffer.pop wrapR5).1

/-- C2: for a well-formed SPSC ring buffer, push returns false iff the
buffer is full, i.e. size() equals capacity() − 1 (one slot
sacrificed); pop returns false (none) iff the buffer is empty
(head == tail); and 0 ≤ size() ≤ capacity() − 1 always.  Both
operations are total Lean functions, which captures that neither call
blocks. -/
theorem rb_push_pop_failure_spec {α : Type} (r : RingBuffer α) (x : α)
    (hwf : RingBuffer.WF r) :
    ((RingBuffer.push r x).2 = false ↔ RingBuffer.size r = r.capacity - 1) ∧
    ((RingBuffer.pop r).2 = none ↔ r.head = r.tail) ∧
    RingBuffer.size r ≤ r.capacity - 1 :=
  ⟨RingBuffer.push_fails_iff_full r x hwf,
   (RingBuffer.pop_fails_iff_empty r).trans eq_comm,
   RingBuffer.size_le_capacity_sub_one r hwf⟩

/-- C2 witness: the failure conditions instantiated on a concrete
freshly constructed ring of capacity 4. -/
theorem rb_push_pop_failure_spec_witness :
    ((RingBuffer.push (RingBuffer.create (α := Nat) 4) 7).2 = false ↔
      RingBuffer.size (RingBuffer.create (α := Nat) 4) =
        (RingBuffer.create (α := Nat) 4).capacity - 1) ∧
    ((RingBuffer.pop (RingBuffer.create (α := Nat) 4)).2 = none ↔
      (RingBuffer.create (α := Nat) 4).head = (RingBuffer.create (α := Nat) 4).tail) ∧
    RingBuffer.size (RingBuffer.create (α := Nat) 4) ≤
      (RingBuffer.create (α := Nat) 4).capacity - 1 :=
  rb_push_pop_failure_spec (RingBuffer.create 4) 7 (by decide)

/-- C3: FIFO round-trip.  From an empty well-formed ring, a sequence S
of pushes that all succeed followed by |S| pops returns exactly the
elements of S in push order (each pop succeeding). -/
theorem rb_fifo_round_trip {α : Type} (r : RingBuffer α) (S : List α)
    (r' : RingBuffer α) (hwf : RingBuffer.WF r) (hempty : r.head = r.tail)
    (hpush : RingBuffer.pushList r S = some r') :
    (RingBuffer.popList r' S.length).2 = S.map some := by
  obtain ⟨hwf', hq⟩ := RingBuffer.pushList_spec S r r' hwf hpush
  have hq0 : RingBuffer.queueList r = [] := by
    apply List.eq_nil_of_length_eq_zero
    rw [RingBuffer.queueList_length]
    exact (RingBuffer.size_eq_zero_iff r hwf).mpr hempty
  rw [hq0, List.nil_append] at hq
  have hlen : RingBuffer.size r' = S.length := by
    rw [← RingBuffer.queueList_length, hq]
  have hres := RingBuffer.popList_spec S.length r' hwf' hlen
  rw [hq] at hres
  exact hres

/-- C3 witness: pushing [1, 2, 3] into a fresh capacity-4 ring and
popping three times yields [1, 2, 3]. -/
theorem rb_fifo_round_trip_witness :
    RingBuffer.pushList (RingBuffer.create (α := Nat) 4) [1, 2, 3] =
      some ((RingBuffer.pushList (RingBuffer.create (α := Nat) 4) [1, 2, 3]).getD
        (RingBuffer.create (α := Nat) 4)) ∧
    (RingBuffer.popList
      ((RingBuffer.pushList (RingBuffer.create (α := Nat) 4) [1, 2, 3]).getD
        (RingBuffer.create (α := Nat) 4)) ([1, 2, 3] : List Nat).length).2 =
      ([1, 2, 3] : List Nat).map some :=
  ⟨rfl, rb_fifo_round_trip (RingBuffer.create 4) [1, 2, 3] _ (by decide) rfl rfl⟩

/-- C6 counterexample: on a ring of (rounded) capacity 4 starting
empty, the third push does NOT return false — it succeeds, because one
reserved slot leaves room for three items.  This refutes the claim that
the third push fails. -/
theorem rb_wrap_third_push_succeeds :
    (RingBuffer.push wrapR2 3).2 = true := by decide

/-- C6 amended: on a ring of requested capacity 4 (rounded to 4),
starting empty, the first three pushes succeed and the FOURTH push
returns false (one slot reserved); after popping twice, two further
pushes both succeed. -/
theorem rb_wrap_scene :
    (RingBuffer.push wrapR0 1).2 = true ∧
    (RingBuffer.push wrapR1 2).2 = true ∧
    (RingBuffer.push wrapR2 3).2 = true ∧
    (RingBuffer.push wrapR3 4).2 = false ∧
    (RingBuffer.pop wrapR4).2 = some 1 ∧
    (RingBuffer.pop wrapR5).2 = some 2 ∧
    (RingBuffer.push wrapR6 5).2 = true ∧
    (RingBuffer.push (RingBuffer.push wrapR6 5).1 6).2 = true := by decide

namespace Risk

/-- MAX_SYMBOLS from risk_engine.h. -/
def MAX_SYMBOLS : Nat := 1000

/-- PositionInfo from risk_engine.h: per-slot quantity, value and
average price (atomic doubles, modelled as exact rationals). -/
structure PositionInfo where
  quantity : ℚ
  value : ℚ
  avg_price : ℚ
deriving DecidableEq, Repr

/-- RiskConfig from risk_engine.h. -/
structure RiskConfig where
  max_position_value : ℚ
  max_order_value : ℚ
  daily_loss_limit : ℚ
  max_open_orders : Int
  max_leverage : ℚ
deriving DecidableEq, Repr

/-- Order fields used by the risk engine (src/core/include/types.h). -/
structure Order where
  symbol : String
  side : Side
  price : ℚ
  quantity : ℚ
deriving DecidableEq, Repr

/-- RiskEngine state: the position table (indexed modulo MAX_SYMBOLS),
daily PnL, open-order count, statistics counters and the running flag.
The in-memory log ring is not part of the observable state modelled. -/
structure RiskEngine where
  config : RiskConfig
  positions : Nat → PositionInfo
  daily_pnl : ℚ
  open_orders : Int
  total_checks : Nat
  total_latency_ns : Nat
  running : Bool

/-- RiskEngine::hashSymbol: hash = hash * 31 + c over the bytes of the
symbol, on size_t (modulo 2^64). -/
def hashSymbol (symbol : String) : Nat :=
  symbol.data.foldl (fun h c => (h * 31 + c.toNat) % 2 ^ 64) 0

/-- RiskEngine::checkOrder.  Rejects immediately when not running
(before touching the statistics counters).  Otherwise applies the four
gates in sequence — order value, prospective position value, daily
PnL, open orders — then bumps total_checks and adds the elapsed
nanoseconds (an input here, since wall time is external) to
total_latency_ns, and returns whether all gates passed. -/
def checkOrder (e : RiskEngine) (order : Order) (latency : Nat) :
    RiskEngine × Bool :=
  if e.running = false then (e, false)
  else
    let order_value := order.price * order.quantity
    let passed :=
      if order_value > e.config.max_order_value then false
      else
        let pos := e.positions (hashSymbol order.symbol % MAX_SYMBOLS)
        let new_position_value :=
          pos.value + (if order.side = Side.BUY then order_value else -order_value)
        if |new_position_value| > e.config.max_position_value then false
        else if e.daily_pnl < -e.config.daily_loss_limit then false
        else if e.open_orders ≥ e.config.max_open_orders then false
        else true
    ({ e with total_checks := e.total_checks + 1,
              total_latency_ns := e.total_latency_ns + latency }, passed)

/-- RiskEngine::updateOrderCount: fetch-add on the open-orders counter. -/
def updateOrderCount (e : RiskEngine) (delta : Int) : RiskEngine :=
  { e with open_orders := e.open_orders + delta }

end Risk

/-- Reference configuration used by the concrete risk scenarios
(mirrors the basic-admission scenario limits). -/
def cexConfig : Risk.RiskConfig :=
  { max_position_value := 50000, max_order_value := 10000,
    daily_loss_limit := 5000, max_open_orders := 10, max_leverage := 10 }

/-- Freshly started risk engine: zeroed positions, PnL, counters. -/
def cexEngine : Risk.RiskEngine :=
  { config := cexConfig, positions := fun _ => ⟨0, 0, 0⟩, daily_pnl := 0,
    open_orders := 0, total_checks := 0, total_latency_ns := 0, running := true }

/-- Same engine but not running. -/
def stoppedEngine : Risk.RiskEngine := { cexEngine with running := false }

/-- Order whose value 20000 breaches the 10000 order-value limit. -/
def cexOrder : Risk.Order :=
  { symbol := "BTCUSDT", side := Side.BUY, price := 40000, quantity := 1/2 }

/-- Order that passes all four gates of cexEngine. -/
def okOrder : Risk.Order :=
  { symbol := "BTCUSDT", side := Side.BUY, price := 40000, quantity := 1/10 }

/-- C4: with the engine running, checkOrder accepts exactly when all
four gates pass — order value within max_order_value, prospective
position value within max_position_value in absolute value, daily PnL
at least −daily_loss_limit, and open orders strictly below
max_open_orders; with the engine stopped, checkOrder rejects. -/
theorem risk_check_gates (e : Risk.RiskEngine) (o : Risk.Order) (l : Nat) :
    (e.running = true →
      ((Risk.checkOrder e o l).2 = true ↔
        (o.price * o.quantity ≤ e.config.max_order_value ∧
         |(e.positions (Risk.hashSymbol o.symbol % Risk.MAX_SYMBOLS)).value +
            (if o.side = Side.BUY then o.price * o.quantity
             else -(o.price * o.quantity))| ≤ e.config.max_position_value ∧
         e.daily_pnl ≥ -e.config.daily_loss_limit ∧
         e.open_orders < e.config.max_open_orders))) ∧
    (e.running = false → (Risk.checkOrder e o l).2 = false) := by
  constructor
  · intro hrun
    simp only [Risk.checkOrder, hrun, Bool.true_eq_false, if_false]
    set v := if o.side = Side.BUY then o.price * o.quantity
             else -(o.price * o.quantity) with hv
    split_ifs with h1 h2 h3 h4
    · simp only [Bool.false_eq_true, false_iff]
      rintro ⟨ha, -, -, -⟩
      exact absurd ha (not_le.mpr h1)
    · simp only [Bool.false_eq_true, false_iff]
      rintro ⟨-, hb, -, -⟩
      exact absurd hb (not_le.mpr h2)
    · simp only [Bool.false_eq_true, false_iff]
      rintro ⟨-, -, hc, -⟩
      exact absurd hc (not_le.mpr h3)
    · simp only [Bool.false_eq_true, false_iff]
      rintro ⟨-, -, -, hd⟩
      exact absurd hd (not_lt.mpr h4)
    · simp only [true_iff]
      exact ⟨not_lt.mp h1, not_lt.mp h2, not_lt.mp h3, not_le.mp h4⟩
  · intro hstop
    simp [Risk.checkOrder, hstop]

/-- C4 witness: the basic-admission scenario — price 40000, quantity
0.1 passes on the running engine; any order is rejected when the
engine is stopped. -/
theorem risk_check_gates_witness :
    (Risk.checkOrder cexEngine okOrder 5).2 = true ∧
    (Risk.checkOrder stoppedEngine okOrder 5).2 = false :=
  ⟨((risk_check_gates cexEngine okOrder 5).1 rfl).mpr
      (by norm_num [okOrder, cexEngine, cexConfig]),
   (risk_check_gates stoppedEngine okOrder 5).2 rfl⟩

/-- C8 counterexample: a rejected order (order value 20000 over the
10000 limit) still bumps total_checks — the engine state is NOT
entirely unchanged on gate failure, refuting the no-mutation claim. -/
theorem risk_reject_mutates_stats :
    (Risk.checkOrder cexEngine cexOrder 5).2 = false ∧
    (Risk.checkOrder cexEngine cexOrder 5).1.total_checks ≠ cexEngine.total_checks := by
  constructor <;> norm_num [Risk.checkOrder, cexEngine, cexOrder, cexConfig]

/-- C8 amended: when the engine is running and checkOrder rejects (some
gate failed), the call returns false and mutates no trading state —
positions, daily_pnl, open_orders, config and the running flag are
unchanged — but the statistics counters are still updated:
total_checks increments by one and total_latency_ns grows by the
measured latency. -/
theorem risk_reject_frame (e : Risk.RiskEngine) (o : Risk.Order) (l : Nat)
    (hrun : e.running = true) (hfail : (Risk.checkOrder e o l).2 = false) :
    (Risk.checkOrder e o l).1.positions = e.positions ∧
    (Risk.checkOrder e o l).1.daily_pnl = e.daily_pnl ∧
    (Risk.checkOrder e o l).1.open_orders = e.open_orders ∧
    (Risk.checkOrder e o l).1.config = e.config ∧
    (Risk.checkOrder e o l).1.running = e.running ∧
    (Risk.checkOrder e o l).1.total_checks = e.total_checks + 1 ∧
    (Risk.checkOrder e o l).1.total_latency_ns = e.total_latency_ns + l := by
  simp [Risk.checkOrder, hrun]

/-- C8 witness: the amended frame property instantiated on the concrete
rejected order. -/
theorem risk_reject_frame_witness :
    (Risk.checkOrder cexEngine cexOrder 5).1.positions = cexEngine.positions ∧
    (Risk.checkOrder cexEngine cexOrder 5).1.daily_pnl = cexEngine.daily_pnl ∧
    (Risk.checkOrder cexEngine cexOrder 5).1.open_orders = cexEngine.open_orders ∧
    (Risk.checkOrder cexEngine cexOrder 5).1.config = cexEngine.config ∧
    (Risk.checkOrder cexEngine cexOrder 5).1.running = cexEngine.running ∧
    (Risk.checkOrder cexEngine cexOrder 5).1.total_checks = cexEngine.total_checks + 1 ∧
    (Risk.checkOrder cexEngine cexOrder 5).1.total_latency_ns =
      cexEngine.total_latency_ns + 5 :=
  risk_reject_frame cexEngine cexOrder 5 rfl
    (by norm_num [Risk.checkOrder, cexEngine, cexOrder, cexConfig])

/-- C10: when the engine is not running, checkOrder returns false and
returns the engine completely unchanged — in particular total_checks,
total_latency_ns, every position slot, daily_pnl and open_orders keep
their prior values; the stopped-path rejection never reaches the
statistics counters. -/
theorem risk_not_running_no_stats (e : Risk.RiskEngine) (o : Risk.Order) (l : Nat)
    (hstop : e.running = false) :
    Risk.checkOrder e o l = (e, false) := by
  simp [Risk.checkOrder, hstop]

/-- C10 witness: instantiated on the stopped engine. -/
theorem risk_not_running_no_stats_witness :
    Risk.checkOrder stoppedEngine cexOrder 5 = (stoppedEngine, false) :=
  risk_not_running_no_stats stoppedEngine cexOrder 5 rfl

namespace Arb

/-- PriceFeed from arbitrage_detector.h (fixed char arrays modelled as
strings, doubles as rationals). -/
structure PriceFeed where
  exchange : String
  symbol : String
  bid_price : ℚ
  bid_quantity : ℚ
  ask_price : ℚ
  ask_quantity : ℚ
  timestamp_ns : Nat
deriving DecidableEq, Repr

/-- ArbitrageConfig from arbitrage_detector.h; the fee maps become
association lists. -/
structure ArbitrageConfig where
  min_profit_rate : ℚ
  min_profit_amount : ℚ
  max_position_size : ℚ
  opportunity_ttl_ns : Nat
  taker_fees : List (String × ℚ)
  maker_fees : List (String × ℚ)
deriving DecidableEq, Repr

/-- ArbitrageOpportunity from arbitrage_detector.h. -/
structure ArbitrageOpportunity where
  id : String
  symbol : String
  buy_exchange : String
  sell_exchange : String
  buy_price : ℚ
  sell_price : ℚ
  max_quantity : ℚ
  profit_rate : ℚ
  net_profit : ℚ
  detected_at_ns : Nat
  valid_until_ns : Nat
deriving DecidableEq, Repr

/-- ArbitrageDetector::calculateFee: per-venue taker or maker rate
lookup; 0.1% (= 1/1000) of the price when the venue is absent. -/
def calculateFee (cfg : ArbitrageConfig) (exchange : String) (price : ℚ)
    (is_taker : Bool) : ℚ :=
  if is_taker then
    match cfg.taker_fees.lookup exchange with
    | some fee => price * fee
    | none => price * (1 / 1000)
  else
    match cfg.maker_fees.lookup exchange with
    | some fee => price * fee
    | none => price * (1 / 1000)

/-- ArbitrageDetector::checkArbitrageOpportunity.  Returns the
opportunity the source pushes onto the outbound ring, or none when any
guard rejects; the ring push copies this value unchanged, so the
emitted record is exactly the `some` payload.  The wall-clock read
becomes the `timestamp` parameter. -/
def checkArbitrageOpportunity (cfg : ArbitrageConfig) (buy sell : PriceFeed)
    (symbol : String) (timestamp : Nat) : Option ArbitrageOpportunity :=
  let price_diff := sell.bid_price - buy.ask_price
  if price_diff ≤ 0 then none
  else
    let profit_rate := price_diff / buy.ask_price
    if profit_rate < cfg.min_profit_rate then none
    else
      let buy_fee := calculateFee cfg buy.exchange buy.ask_price true
      let sell_fee := calculateFee cfg sell.exchange sell.bid_price true
      let total_fee_rate := (buy_fee + sell_fee) / buy.ask_price
      let net_profit_rate := profit_rate - total_fee_rate
      if net_profit_rate < cfg.min_profit_rate then none
      else
        let max_quantity0 := min buy.ask_quantity sell.bid_quantity
        let max_value0 := max_quantity0 * buy.ask_price
        let max_quantity :=
          if max_value0 > cfg.max_position_size then
            cfg.max_position_size / buy.ask_price
          else max_quantity0
        let net_profit := max_quantity * price_diff - max_quantity * (buy_fee + sell_fee)
        if net_profit < cfg.min_profit_amount then none
        else
          some { id := symbol ++ "_" ++ buy.exchange ++ "_" ++ sell.exchange ++ "_"
                        ++ toString timestamp
                 symbol := symbol
                 buy_exchange := buy.exchange
                 sell_exchange := sell.exchange
                 buy_price := buy.ask_price
                 sell_price := sell.bid_price
                 max_quantity := max_quantity
                 profit_rate := net_profit_rate
                 net_profit := net_profit
                 detected_at_ns := timestamp
                 valid_until_ns := timestamp + cfg.opportunity_ttl_ns }

end Arb

/-- Arbitrage configuration of the literal emission scenario:
min_profit_rate 0.001, min_profit_amount 0.1, max_position_size 1000,
taker fee 0.001 on both venues. -/
def arbCfgW : Arb.ArbitrageConfig :=
  { min_profit_rate := 1/1000, min_profit_amount := 1/10,
    max_position_size := 1000, opportunity_ttl_ns := 500000000,
    taker_fees := [("A", 1/1000), ("B", 1/1000)], maker_fees := [] }

/-- Venue A feed: ask 100.0, ask quantity 1. -/
def buyFeedW : Arb.PriceFeed :=
  { exchange := "A", symbol := "X", bid_price := 9990/100, bid_quantity := 1,
    ask_price := 100, ask_quantity := 1, timestamp_ns := 0 }

/-- Venue B feed: bid 100.5, bid quantity 1. -/
def sellFeedW : Arb.PriceFeed :=
  { exchange := "B", symbol := "X", bid_price := 201/2, bid_quantity := 1,
    ask_price := 101, ask_quantity := 1, timestamp_ns := 0 }

/-- Opportunity emitted in the scenario: net profit
0.5 − (100·0.001 + 100.5·0.001) = 0.2995, net profit rate 0.002995. -/
def oppW : Arb.ArbitrageOpportunity :=
  { id := "X_A_B_0", symbol := "X", buy_exchange := "A", sell_exchange := "B",
    buy_price := 100, sell_price := 201/2, max_quantity := 1,
    profit_rate := 2995/1000000, net_profit := 2995/10000,
    detected_at_ns := 0, valid_until_ns := 500000000 }

/-- C1: every opportunity the check pushes satisfies
net_profit ≥ min_profit_amount and profit_rate ≥ min_profit_rate at
emission; and for any pair of feeds whose gross edge
sell.bid − buy.ask is non-positive, the check emits nothing. -/
theorem arb_emitted_profit_bounds :
    (∀ (cfg : Arb.ArbitrageConfig) (buy sell : Arb.PriceFeed) (symbol : String)
       (ts : Nat) (opp : Arb.ArbitrageOpportunity),
        Arb.checkArbitrageOpportunity cfg buy sell symbol ts = some opp →
          opp.net_profit ≥ cfg.min_profit_amount ∧
          opp.profit_rate ≥ cfg.min_profit_rate) ∧
    (∀ (cfg : Arb.ArbitrageConfig) (buy sell : Arb.PriceFeed) (symbol : String)
       (ts : Nat),
        sell.bid_price - buy.ask_price ≤ 0 →
          Arb.checkArbitrageOpportunity cfg buy sell symbol ts = none) := by
  constructor
  · intro cfg buy sell symbol ts opp h
    simp only [Arb.checkArbitrageOpportunity] at h
    split_ifs at h with h1 h2 h3 h4 h5 h6
    all_goals
      first
        | exact Option.noConfusion h
        | (simp only [Option.some.injEq] at h; subst h;
           exact ⟨not_lt.mp h5, not_lt.mp h3⟩)
        | (simp only [Option.some.injEq] at h; subst h;
           exact ⟨not_lt.mp h6, not_lt.mp h3⟩)
  · intro cfg buy sell symbol ts h1
    simp only [Arb.checkArbitrageOpportunity]
    rw [if_pos h1]

/-- C1 witness: the literal emission scenario produces exactly oppW,
whose net profit 0.2995 and net rate 0.002995 clear the thresholds,
and the reversed direction (edge −1 ≤ 0) emits nothing. -/
theorem arb_emitted_profit_bounds_witness :
    Arb.checkArbitrageOpportunity arbCfgW buyFeedW sellFeedW "X" 0 = some oppW ∧
    (oppW.net_profit ≥ arbCfgW.min_profit_amount ∧
     oppW.profit_rate ≥ arbCfgW.min_profit_rate) ∧
    Arb.checkArbitrageOpportunity arbCfgW sellFeedW buyFeedW "X" 0 = none := by
  have h : Arb.checkArbitrageOpportunity arbCfgW buyFeedW sellFeedW "X" 0 = some oppW := by
    norm_num [Arb.checkArbitrageOpportunity, Arb.calculateFee, arbCfgW,
      buyFeedW, sellFeedW, oppW, List.lookup,
      show (("A" : String) == "A") = true from rfl,
      show (("B" : String) == "A") = false from rfl,
      show ("X" ++ "_" ++ "A" ++ "_" ++ "B" ++ "_" ++ toString (0 : Nat))
        = "X_A_B_0" from rfl]
  refine ⟨h, arb_emitted_profit_bounds.1 arbCfgW buyFeedW sellFeedW "X" 0 oppW h, ?_⟩
  exact arb_emitted_profit_bounds.2 arbCfgW sellFeedW buyFeedW "X" 0
    (by norm_num [sellFeedW, buyFeedW])

namespace MM

/-- MAX_QUOTES from market_maker.h. -/
def MAX_QUOTES : Nat := 20

/-- QUOTE_BUFFER_SIZE from market_maker.h. -/
def QUOTE_BUFFER_SIZE : Nat := 1024

/-- MarketMakerConfig from market_maker.h. -/
structure MarketMakerConfig where
  base_spread_bps : ℚ
  min_spread_bps : ℚ
  max_spread_bps : ℚ
  quote_size : ℚ
  quote_levels : Nat
  level_spacing_bps : ℚ
  max_inventory : ℚ
  inventory_skew : ℚ
  volatility_factor : ℚ
  max_position_value : ℚ
  stop_loss_percent : ℚ
  max_daily_loss : ℚ
deriving DecidableEq, Repr

/-- MarketSnapshot from market_maker.h. -/
structure MarketSnapshot where
  bid_price : ℚ
  ask_price : ℚ
  mid_price : ℚ
  last_price : ℚ
  bid_size : ℚ
  ask_size : ℚ
  volatility : ℚ
  timestamp_ns : Nat
deriving DecidableEq, Repr

/-- InventorySnapshot from market_maker.h. -/
structure InventorySnapshot where
  position : ℚ
  avg_price : ℚ
  unrealized_pnl : ℚ
  realized_pnl : ℚ
  position_value : ℚ
  timestamp_ns : Nat
deriving DecidableEq, Repr

/-- MMQuote from market_maker.h. -/
structure MMQuote where
  symbol : String
  exchange : String
  side : Side
  price : ℚ
  quantity : ℚ
  level : Nat
  timestamp_ns : Nat
deriving DecidableEq, Repr, Inhabited

/-- MarketMakerEngine::getInventorySkew: 1 + inventory_skew times the
absolute inventory fraction. -/
def getInventorySkew (cfg : MarketMakerConfig) (position : ℚ) : ℚ :=
  let invFrac := position / cfg.max_inventory
  1 + cfg.inventory_skew * |invFrac|

/-- MarketMakerEngine::calculateSpread: base spread in fractional
terms, scaled by the volatility factor and the inventory skew factor,
clamped to the configured minimum and maximum. -/
def calculateSpread (cfg : MarketMakerConfig) (market : MarketSnapshot)
    (inventory : InventorySnapshot) : ℚ :=
  let base_spread := cfg.base_spread_bps / 10000
  let vol_factor := 1 + market.volatility * cfg.volatility_factor
  let skew_factor := getInventorySkew cfg inventory.position
  let spread := base_spread * vol_factor * skew_factor
  let min_spread := cfg.min_spread_bps / 10000
  let max_spread := cfg.max_spread_bps / 10000
  max min_spread (min max_spread spread)

/-- Price computed by MarketMakerEngine::generateQuoteLevel just
before the inventory-skew block: level spread widened with the level
index, subtracted from mid on the buy side and added on the sell
side. -/
def quoteLevelRawPrice (cfg : MarketMakerConfig) (side : Side)
    (mid_price spread : ℚ) (level : Nat) : ℚ :=
  let level_spread := spread * (1 + (level : ℚ) * cfg.level_spacing_bps / 10000)
  if side = Side.BUY then mid_price * (1 - level_spread)
  else mid_price * (1 + level_spread)

/-- Inventory-skew block closing generateQuoteLevel (the source's 0.5
literal is 1/2). -/
def applyInventorySkew (cfg : MarketMakerConfig) (inventory : InventorySnapshot)
    (side : Side) (price : ℚ) : ℚ :=
  let invFrac := inventory.position / cfg.max_inventory
  if invFrac > 0 then
    if side = Side.SELL then price * (1 - |invFrac| * cfg.inventory_skew * (1/2))
    else price * (1 + |invFrac| * cfg.inventory_skew * (1/2))
  else if invFrac < 0 then
    if side = Side.BUY then price * (1 + |invFrac| * cfg.inventory_skew * (1/2))
    else price * (1 - |invFrac| * cfg.inventory_skew * (1/2))
  else price

/-- MarketMakerEngine::generateQuoteLevel as the quote it stores (the
MAX_QUOTES cap is applied by the caller as a batch truncation). -/
def generateQuoteLevel (cfg : MarketMakerConfig) (inventory : InventorySnapshot)
    (symbol : String) (side : Side) (mid_price spread : ℚ) (level : Nat)
    (ts : Nat) : MMQuote :=
  { symbol := symbol, exchange := "binance", side := side, level := level,
    quantity := cfg.quote_size, timestamp_ns := ts,
    price := applyInventorySkew cfg inventory side
               (quoteLevelRawPrice cfg side mid_price spread level) }

/-- MarketMakerEngine state: configuration, published snapshots, the
outbound quote ring and the quotes_generated counter.  Version
counters, the price history and the market_updates counter are not
referenced by the properties proved here and are omitted. -/
structure MarketMakerEngine where
  config : MarketMakerConfig
  market_state : MarketSnapshot
  inventory_state : InventorySnapshot
  quote_buffer : RingBuffer MMQuote
  quotes_generated : Nat
  running : Bool

/-- Quote batch accumulated in current_quotes_ by the generateQuotes
level loop: for each level a bid then an ask quote, truncated at
MAX_QUOTES (generateQuoteLevel drops quotes past that index). -/
def quoteBatch (cfg : MarketMakerConfig) (inventory : InventorySnapshot)
    (mid spread : ℚ) (ts : Nat) : List MMQuote :=
  ((List.range cfg.quote_levels).flatMap (fun level =>
      [generateQuoteLevel cfg inventory "BTCUSDT" Side.BUY mid spread level ts,
       generateQuoteLevel cfg inventory "BTCUSDT" Side.SELL mid spread level ts])).take
    MAX_QUOTES

/-- Push loop closing MarketMakerEngine::generateQuotes: each stored
quote is pushed to the ring and quotes_generated is incremented — the
source discards push's Bool result, so the increment happens whether
or not the push succeeded. -/
def pushQuotesLoop : RingBuffer MMQuote → Nat → List MMQuote → RingBuffer MMQuote × Nat
  | buf, gen, [] => (buf, gen)
  | buf, gen, q :: rest => pushQuotesLoop (RingBuffer.push buf q).1 (gen + 1) rest

/-- MarketMakerEngine::generateQuotes: requires running and a
non-trivial market snapshot, computes the dynamic spread, builds the
per-level quote batch and runs the push loop. -/
def generateQuotes (e : MarketMakerEngine) (ts : Nat) : MarketMakerEngine :=
  if e.running = false then e
  else
    let market := e.market_state
    let inventory := e.inventory_state
    if market.mid_price ≤ 0 ∨ market.bid_price ≤ 0 ∨ market.ask_price ≤ 0 then e
    else
      let spread := calculateSpread e.config market inventory
      let quotes := quoteBatch e.config inventory market.mid_price spread ts
      let res := pushQuotesLoop e.quote_buffer e.quotes_generated quotes
      { e with quote_buffer := res.1, quotes_generated := res.2 }

/-- The push loop increments quotes_generated once per quote in the
batch, regardless of push successes. -/
theorem pushQuotesLoop_gen (qs : List MMQuote) :
    ∀ (buf : RingBuffer MMQuote) (gen : Nat),
      (pushQuotesLoop buf gen qs).2 = gen + qs.length := by
  induction qs with
  | nil => intro buf gen; simp [pushQuotesLoop]
  | cons q rest ih =>
    intro buf gen
    rw [pushQuotesLoop, ih]
    simp
    omega

/-- The level loop stores two quotes per level. -/
theorem length_pair_flatMap {β : Type} (f g : Nat → β) (n : Nat) :
    ((List.range n).flatMap (fun L => [f L, g L])).length = 2 * n := by
  induction n with
  | zero => simp
  | succ n ih =>
    rw [List.range_succ, List.flatMap_append, List.length_append, ih]
    simp
    omega

/-- Size of the quote batch: twice the level count, capped at
MAX_QUOTES. -/
theorem quoteBatch_length (cfg : MarketMakerConfig) (inventory : InventorySnapshot)
    (mid spread : ℚ) (ts : Nat) :
    (quoteBatch cfg inventory mid spread ts).length =
      min (2 * cfg.quote_levels) MAX_QUOTES := by
  rw [quoteBatch, List.length_take, length_pair_flatMap]
  omega

end MM

/-- Market-maker configuration for the concrete scenarios: base spread
10 bps, bounds [5, 50] bps, one quote level, level spacing 2 bps. -/
def mmCfgW : MM.MarketMakerConfig :=
  { base_spread_bps := 10, min_spread_bps := 5, max_spread_bps := 50,
    quote_size := 1, quote_levels := 1, level_spacing_bps := 2,
    max_inventory := 100, inventory_skew := 1/2, volatility_factor := 1,
    max_position_value := 100000, stop_loss_percent := 1/50,
    max_daily_loss := 1000 }

/-- Market snapshot with mid 100 and zero volatility. -/
def mmMarketW : MM.MarketSnapshot :=
  { bid_price := 99, ask_price := 101, mid_price := 100, last_price := 100,
    bid_size := 1, ask_size := 1, volatility := 0, timestamp_ns := 0 }

/-- Flat inventory snapshot. -/
def mmInvW : MM.InventorySnapshot :=
  { position := 0, avg_price := 0, unrealized_pnl := 0, realized_pnl := 0,
    position_value := 0, timestamp_ns := 0 }

/-- Outbound quote ring in its full state (head one slot behind tail
modulo capacity): every push fails. -/
def fullQuoteBuffer : RingBuffer MM.MMQuote :=
  { capacity := MM.QUOTE_BUFFER_SIZE, buffer := fun _ => default,
    head := MM.QUOTE_BUFFER_SIZE - 1, tail := 0 }

/-- Running market-maker engine whose outbound ring is full. -/
def mmEngineFull : MM.MarketMakerEngine :=
  { config := mmCfgW, market_state := mmMarketW, inventory_state := mmInvW,
    quote_buffer := fullQuoteBuffer, quotes_generated := 0, running := true }

/-- C5 counterexample: with the outbound ring full, generateQuotes
pushes nothing (the ring is unchanged) yet quotes_generated still
rises by the batch size 2 — a failed push DOES increment the counter,
refuting the claim. -/
theorem mm_failed_push_still_counts :
    (MM.generateQuotes mmEngineFull 0).quote_buffer.head =
      mmEngineFull.quote_buffer.head ∧
    (MM.generateQuotes mmEngineFull 0).quote_buffer.tail =
      mmEngineFull.quote_buffer.tail ∧
    (MM.generateQuotes mmEngineFull 0).quotes_generated =
      mmEngineFull.quotes_generated + 2 := by
  norm_num [MM.generateQuotes, MM.quoteBatch, MM.pushQuotesLoop,
    MM.generateQuoteLevel, MM.MAX_QUOTES, MM.QUOTE_BUFFER_SIZE,
    RingBuffer.push, mmEngineFull, mmCfgW, mmMarketW, mmInvW, fullQuoteBuffer,
    List.range_succ]

/-- C5 amended: generateQuotes increments quotes_generated once per
quote push ATTEMPT — the batch holds min(2·quote_levels, MAX_QUOTES)
quotes and the counter grows by exactly that amount whether or not the
ring accepts each quote (the source ignores push's Bool result). -/
theorem mm_generated_counts_attempts (e : MM.MarketMakerEngine) (ts : Nat)
    (hrun : e.running = true) (hmid : 0 < e.market_state.mid_price)
    (hbid : 0 < e.market_state.bid_price) (hask : 0 < e.market_state.ask_price) :
    (MM.generateQuotes e ts).quotes_generated =
      e.quotes_generated + min (2 * e.config.quote_levels) MM.MAX_QUOTES := by
  simp only [MM.generateQuotes, hrun, Bool.true_eq_false, if_false]
  rw [if_neg (by push_neg; exact ⟨hmid, hbid, hask⟩)]
  rw [MM.pushQuotesLoop_gen, MM.quoteBatch_length]

/-- C5 witness for the amended claim: the full-ring engine with one
quote level reports two generated quotes. -/
theorem mm_generated_counts_attempts_witness :
    (MM.generateQuotes mmEngineFull 0).quotes_generated =
      mmEngineFull.quotes_generated +
        min (2 * mmEngineFull.config.quote_levels) MM.MAX_QUOTES :=
  mm_generated_counts_attempts mmEngineFull 0 rfl
    (by norm_num [mmEngineFull, mmMarketW])
    (by norm_num [mmEngineFull, mmMarketW])
    (by norm_num [mmEngineFull, mmMarketW])

/-- C9: with min_spread_bps ≥ 0, level_spacing_bps ≥ 0 and a positive
mid price, the pre-skew quote price at any level L computed from the
calculateSpread output stays at or below mid on the buy side and at or
above mid on the sell side, and the absolute deviation from mid is
non-decreasing in the level index. -/
theorem mm_quote_prices_bracket_mid (cfg : MM.MarketMakerConfig)
    (market : MM.MarketSnapshot) (inventory : MM.InventorySnapshot)
    (mid : ℚ) (L L' : Nat)
    (hmin : 0 ≤ cfg.min_spread_bps) (hls : 0 ≤ cfg.level_spacing_bps)
    (hmid : 0 < mid) (hLL : L ≤ L') :
    MM.quoteLevelRawPrice cfg Side.BUY mid
        (MM.calculateSpread cfg market inventory) L ≤ mid ∧
    mid ≤ MM.quoteLevelRawPrice cfg Side.SELL mid
        (MM.calculateSpread cfg market inventory) L ∧
    |MM.quoteLevelRawPrice cfg Side.BUY mid
        (MM.calculateSpread cfg market inventory) L - mid| ≤
      |MM.quoteLevelRawPrice cfg Side.BUY mid
        (MM.calculateSpread cfg market inventory) L' - mid| ∧
    |MM.quoteLevelRawPrice cfg Side.SELL mid
        (MM.calculateSpread cfg market inventory) L - mid| ≤
      |MM.quoteLevelRawPrice cfg Side.SELL mid
        (MM.calculateSpread cfg market inventory) L' - mid| := by
  set s := MM.calculateSpread cfg market inventory with hsdef
  have hs : 0 ≤ s := by
    rw [hsdef]
    unfold MM.calculateSpread
    have h0 : 0 ≤ cfg.min_spread_bps / 10000 := by
      exact div_nonneg hmin (by norm_num)
    exact le_trans h0 (le_max_left _ _)
  have hfac : ∀ n : Nat, 0 ≤ s * (1 + (n : ℚ) * cfg.level_spacing_bps / 10000) := by
    intro n
    apply mul_nonneg hs
    have : 0 ≤ (n : ℚ) * cfg.level_spacing_bps / 10000 :=
      div_nonneg (mul_nonneg (Nat.cast_nonneg n) hls) (by norm_num)
    linarith
  have hmono : s * (1 + (L : ℚ) * cfg.level_spacing_bps / 10000) ≤
      s * (1 + (L' : ℚ) * cfg.level_spacing_bps / 10000) := by
    apply mul_le_mul_of_nonneg_left _ hs
    have hcast : (L : ℚ) ≤ (L' : ℚ) := Nat.cast_le.mpr hLL
    have : (L : ℚ) * cfg.level_spacing_bps / 10000 ≤
        (L' : ℚ) * cfg.level_spacing_bps / 10000 := by
      apply div_le_div_of_nonneg_right ?_ (by norm_num)
      exact mul_le_mul_of_nonneg_right hcast hls
    linarith
  simp only [MM.quoteLevelRawPrice, reduceCtorEq, if_true, if_false]
  refine ⟨?_, ?_, ?_, ?_⟩
  · nlinarith [mul_nonneg hmid.le (hfac L)]
  · nlinarith [mul_nonneg hmid.le (hfac L)]
  · have e1 : mid * (1 - s * (1 + (L : ℚ) * cfg.level_spacing_bps / 10000)) - mid =
        -(mid * (s * (1 + (L : ℚ) * cfg.level_spacing_bps / 10000))) := by ring
    have e2 : mid * (1 - s * (1 + (L' : ℚ) * cfg.level_spacing_bps / 10000)) - mid =
        -(mid * (s * (1 + (L' : ℚ) * cfg.level_spacing_bps / 10000))) := by ring
    rw [e1, e2, abs_neg, abs_neg,
        abs_of_nonneg (mul_nonneg hmid.le (hfac L)),
        abs_of_nonneg (mul_nonneg hmid.le (hfac L'))]
    exact mul_le_mul_of_nonneg_left hmono hmid.le
  · have e1 : mid * (1 + s * (1 + (L : ℚ) * cfg.level_spacing_bps / 10000)) - mid =
        mid * (s * (1 + (L : ℚ) * cfg.level_spacing_bps / 10000)) := by ring
    have e2 : mid * (1 + s * (1 + (L' : ℚ) * cfg.level_spacing_bps / 10000)) - mid =
        mid * (s * (1 + (L' : ℚ) * cfg.level_spacing_bps / 10000)) := by ring
    rw [e1, e2,
        abs_of_nonneg (mul_nonneg hmid.le (hfac L)),
        abs_of_nonneg (mul_nonneg hmid.le (hfac L'))]
    exact mul_le_mul_of_nonneg_left hmono hmid.le

/-- C9 witness: the bracketing and monotone-deviation facts at levels
0 and 1 of the concrete configuration with mid 100. -/
theorem mm_quote_prices_bracket_mid_witness :
    MM.quoteLevelRawPrice mmCfgW Side.BUY 100
        (MM.calculateSpread mmCfgW mmMarketW mmInvW) 0 ≤ 100 ∧
    (100 : ℚ) ≤ MM.quoteLevelRawPrice mmCfgW Side.SELL 100
        (MM.calculateSpread mmCfgW mmMarketW mmInvW) 0 ∧
    |MM.quoteLevelRawPrice mmCfgW Side.BUY 100
        (MM.calculateSpread mmCfgW mmMarketW mmInvW) 0 - 100| ≤
      |MM.quoteLevelRawPrice mmCfgW Side.BUY 100
        (MM.calculateSpread mmCfgW mmMarketW mmInvW) 1 - 100| ∧
    |MM.quoteLevelRawPrice mmCfgW Side.SELL 100
        (MM.calculateSpread mmCfgW mmMarketW mmInvW) 0 - 100| ≤
      |MM.quoteLevelRawPrice mmCfgW Side.SELL 100
        (MM.calculateSpread mmCfgW mmMarketW mmInvW) 1 - 100| :=
  mm_quote_prices_bracket_mid mmCfgW mmMarketW mmInvW 100 0 1
    (by norm_num [mmCfgW]) (by norm_num [mmCfgW]) (by norm_num) (by norm_num)

namespace OM

/-- OrderManager::Config from order_manager.h. -/
structure Config where
  ring_buffer_size : Nat
  max_orders_per_second : Nat
  max_active_orders : Nat
deriving DecidableEq, Repr

/-- Order record fields that SubmitOrder touches
(src/core/include/types.h). -/
structure Order where
  id : Nat
  exchange : ExchangeType
  symbol : String
  side : Side
  price : ℚ
  quantity : ℚ
  status : OrderStatus
deriving DecidableEq, Repr, Inhabited

/-- OrderManager state relevant to admission: the per-venue rings, the
tumbling-window rate counter with its window start, and the rejected
counter.  The dispatch worker, order index and latency statistics are
not touched by SubmitOrder's admission path. -/
structure OrderManagerState where
  config : Config
  order_queues : ExchangeType → RingBuffer Order
  orders_this_second : Nat
  last_rate_check : Nat
  orders_rejected : Nat

/-- OrderManager::SubmitOrder.  Wall time arrives as `now` in
nanoseconds; `now - last_rate_check >= 1 s` uses truncated Nat
subtraction, matching the non-negative steady-clock durations of the
source.  orders_this_second is a uint32 fetch-add (the compare uses
the pre-increment value); overflow is modelled with % 2^32. -/
def submitOrder (s : OrderManagerState) (order : Order) (now : Nat) :
    OrderManagerState × Bool :=
  let s :=
    if now - s.last_rate_check ≥ 1000000000 then
      { s with orders_this_second := 0, last_rate_check := now }
    else s
  let old := s.orders_this_second
  let s := { s with orders_this_second := (old + 1) % 2 ^ 32 }
  if old ≥ s.config.max_orders_per_second then
    ({ s with orders_rejected := s.orders_rejected + 1 }, false)
  else
    let res := RingBuffer.push (s.order_queues order.exchange) order
    if res.2 = false then
      ({ s with orders_rejected := s.orders_rejected + 1 }, false)
    else
      ({ s with order_queues :=
          fun v => if v = order.exchange then res.1 else s.order_queues v }, true)

/-- Sequence of SubmitOrder calls with their arrival times, collecting
the returned Booleans in order. -/
def submitList (s : OrderManagerState) :
    List (Order × Nat) → OrderManagerState × List Bool
  | [] => (s, [])
  | (o, t) :: rest =>
    let r := submitOrder s o t
    let rr := submitList r.1 rest
    (rr.1, r.2 :: rr.2)

end OM

namespace OM

/-- Within the rate window and under the limit, SubmitOrder with a
non-full target ring accepts: the counter advances, nothing is
rejected, the window and config are untouched, and every venue ring
stays well-formed with its size grown by at most one and its capacity
unchanged. -/
theorem submitOrder_accept (s : OrderManagerState) (o : Order) (now : Nat)
    (hnr : now - s.last_rate_check < 1000000000)
    (hold : s.orders_this_second < s.config.max_orders_per_second)
    (hwf : ∀ v, RingBuffer.WF (s.order_queues v))
    (hroom : RingBuffer.size (s.order_queues o.exchange) + 2 ≤
      (s.order_queues o.exchange).capacity) :
    (submitOrder s o now).2 = true ∧
    (submitOrder s o now).1.orders_this_second =
      (s.orders_this_second + 1) % 2 ^ 32 ∧
    (submitOrder s o now).1.orders_rejected = s.orders_rejected ∧
    (submitOrder s o now).1.last_rate_check = s.last_rate_check ∧
    (submitOrder s o now).1.config = s.config ∧
    (∀ v, RingBuffer.WF ((submitOrder s o now).1.order_queues v)) ∧
    (∀ v, RingBuffer.size ((submitOrder s o now).1.order_queues v) ≤
      RingBuffer.size (s.order_queues v) + 1) ∧
    (∀ v, ((submitOrder s o now).1.order_queues v).capacity =
      (s.order_queues v).capacity) := by
  have hfull : RingBuffer.size (s.order_queues o.exchange) ≠
      (s.order_queues o.exchange).capacity - 1 := by
    have hle := RingBuffer.size_le_capacity_sub_one _ (hwf o.exchange)
    omega
  have hsucc : (RingBuffer.push (s.order_queues o.exchange) o).2 = true := by
    rw [RingBuffer.push_not_full _ _ (hwf o.exchange) hfull]
  obtain ⟨hpushwf, hpushsize⟩ := RingBuffer.size_push (s.order_queues o.exchange) o
    (hwf o.exchange) hfull
  have hstep : submitOrder s o now =
      ({ s with
          orders_this_second := (s.orders_this_second + 1) % 2 ^ 32,
          order_queues := fun v =>
            if v = o.exchange then
              (RingBuffer.push (s.order_queues o.exchange) o).1
            else s.order_queues v }, true) := by
    simp only [submitOrder]
    rw [if_neg (show ¬(now - s.last_rate_check ≥ 1000000000) from by omega)]
    rw [if_neg (show ¬(s.orders_this_second ≥ s.config.max_orders_per_second)
          from by omega)]
    rw [if_neg (show ¬((RingBuffer.push (s.order_queues o.exchange) o).2 = false)
          from by simp [hsucc])]
  rw [hstep]
  refine ⟨rfl, rfl, rfl, rfl, rfl, ?_, ?_, ?_⟩
  · intro v
    by_cases hv : v = o.exchange
    · subst hv
      simp only [eq_self_iff_true, if_true]
      exact hpushwf
    · simp only [if_neg hv]
      exact hwf v
  · intro v
    by_cases hv : v = o.exchange
    · subst hv
      simp only [eq_self_iff_true, if_true]
      omega
    · simp only [if_neg hv]
      omega
  · intro v
    by_cases hv : v = o.exchange
    · subst hv
      simp only [eq_self_iff_true, if_true]
      rw [RingBuffer.push_not_full _ _ (hwf o.exchange) hfull]
    · simp only [if_neg hv]

/-- Within the rate window and at or above the limit, SubmitOrder
rejects: counter still advances, rejected grows by one, no ring is
touched. -/
theorem submitOrder_ratelimit (s : OrderManagerState) (o : Order) (now : Nat)
    (hnr : now - s.last_rate_check < 1000000000)
    (hold : s.config.max_orders_per_second ≤ s.orders_this_second) :
    submitOrder s o now =
      ({ s with
          orders_this_second := (s.orders_this_second + 1) % 2 ^ 32,
          orders_rejected := s.orders_rejected + 1 }, false) := by
  simp only [submitOrder]
  rw [if_neg (show ¬(now - s.last_rate_check ≥ 1000000000) from by omega)]
  rw [if_pos (show s.orders_this_second ≥ s.config.max_orders_per_second
        from by omega)]

end OM

/-- C7: per-second tumbling-window rate limit.  From a state with a
fresh window counter, max_orders_per_second = 3, and venue rings with
room, five submissions inside the window return true for the first
three and false for the last two, and orders_rejected grows by exactly
two. -/
theorem om_rate_limit_scene (s : OM.OrderManagerState)
    (o1 o2 o3 o4 o5 : OM.Order) (t1 t2 t3 t4 t5 : Nat)
    (h0 : s.orders_this_second = 0)
    (hmax : s.config.max_orders_per_second = 3)
    (ht1 : t1 - s.last_rate_check < 1000000000)
    (ht2 : t2 - s.last_rate_check < 1000000000)
    (ht3 : t3 - s.last_rate_check < 1000000000)
    (ht4 : t4 - s.last_rate_check < 1000000000)
    (ht5 : t5 - s.last_rate_check < 1000000000)
    (hwf : ∀ v, RingBuffer.WF (s.order_queues v))
    (hroom : ∀ v, RingBuffer.size (s.order_queues v) + 4 ≤
      (s.order_queues v).capacity) :
    (OM.submitList s [(o1, t1), (o2, t2), (o3, t3), (o4, t4), (o5, t5)]).2 =
      [true, true, true, false, false] ∧
    (OM.submitList s
      [(o1, t1), (o2, t2), (o3, t3), (o4, t4), (o5, t5)]).1.orders_rejected =
      s.orders_rejected + 2 := by
  simp only [OM.submitList]
  set s1 := (OM.submitOrder s o1 t1).1 with hs1def
  set s2 := (OM.submitOrder s1 o2 t2).1 with hs2def
  set s3 := (OM.submitOrder s2 o3 t3).1 with hs3def
  set s4 := (OM.submitOrder s3 o4 t4).1 with hs4def
  obtain ⟨a1res, a1this, a1rej, a1last, a1cfg, a1wf, a1size, a1cap⟩ :=
    OM.submitOrder_accept s o1 t1 ht1 (by omega) hwf
      (by have := hroom o1.exchange; omega)
  obtain ⟨a2res, a2this, a2rej, a2last, a2cfg, a2wf, a2size, a2cap⟩ :=
    OM.submitOrder_accept s1 o2 t2
      (by rw [hs1def, a1last]; exact ht2)
      (by rw [hs1def, a1this, a1cfg, hmax, h0]; norm_num)
      (by rw [hs1def]; exact a1wf)
      (by rw [hs1def]
          have hA := a1size o2.exchange
          have hB := a1cap o2.exchange
          have hC := hroom o2.exchange
          omega)
  obtain ⟨a3res, a3this, a3rej, a3last, a3cfg, a3wf, a3size, a3cap⟩ :=
    OM.submitOrder_accept s2 o3 t3
      (by rw [hs2def, a2last, hs1def, a1last]; exact ht3)
      (by rw [hs2def, a2this, a2cfg, hs1def, a1this, a1cfg, hmax, h0]; norm_num)
      (by rw [hs2def]; exact a2wf)
      (by rw [hs2def]
          have hA := a2size o3.exchange
          have hB := a2cap o3.exchange
          have hC := a1size o3.exchange
          have hD := a1cap o3.exchange
          have hE := hroom o3.exchange
          rw [← hs1def] at hC hD
          omega)
  have e4 := OM.submitOrder_ratelimit s3 o4 t4
      (by rw [hs3def, a3last, hs2def, a2last, hs1def, a1last]; exact ht4)
      (by rw [hs3def, a3this, a3cfg, hs2def, a2this, a2cfg, hs1def, a1this,
              a1cfg, hmax, h0]
          norm_num)
  have a4res : (OM.submitOrder s3 o4 t4).2 = false := by rw [e4]
  have a4this : s4.orders_this_second = (s3.orders_this_second + 1) % 2 ^ 32 := by
    rw [hs4def, e4]
  have a4last : s4.last_rate_check = s3.last_rate_check := by rw [hs4def, e4]
  have a4cfg : s4.config = s3.config := by rw [hs4def, e4]
  have a4rej : s4.orders_rejected = s3.orders_rejected + 1 := by rw [hs4def, e4]
  have e5 := OM.submitOrder_ratelimit s4 o5 t5
      (by rw [a4last, hs3def, a3last, hs2def, a2last, hs1def, a1last]; exact ht5)
      (by rw [a4this, a4cfg, hs3def, a3this, a3cfg, hs2def, a2this, a2cfg,
              hs1def, a1this, a1cfg, hmax, h0]
          norm_num)
  have a5res : (OM.submitOrder s4 o5 t5).2 = false := by rw [e5]
  have a5rej : (OM.submitOrder s4 o5 t5).1.orders_rejected =
      s4.orders_rejected + 1 := by rw [e5]
  refine ⟨?_, ?_⟩
  · rw [a1res]
    rw [show (OM.submitOrder s1 o2 t2).2 = true from a2res]
    rw [show (OM.submitOrder s2 o3 t3).2 = true from a3res]
    rw [a4res, a5res]
  · rw [a5rej, a4rej, hs3def, a3rej, hs2def, a2rej, hs1def, a1rej]

/-- Fresh order-manager state with max_orders_per_second = 3 and empty
capacity-4 venue rings. -/
def omState0 : OM.OrderManagerState :=
  { config := { ring_buffer_size := 4, max_orders_per_second := 3,
                max_active_orders := 1000000 },
    order_queues := fun _ => RingBuffer.create 4,
    orders_this_second := 0, last_rate_check := 0, orders_rejected := 0 }

/-- Order used by the rate-limit scenario. -/
def omOrderW : OM.Order :=
  { id := 0, exchange := ExchangeType.BINANCE_SPOT, symbol := "BTCUSDT",
    side := Side.BUY, price := 100, quantity := 1, status := OrderStatus.NEW }

/-- C7 witness: five concrete submissions at time 0 against the fresh
state — three accepted, two rejected, rejected counter at 2. -/
theorem om_rate_limit_scene_witness :
    (OM.submitList omState0
      [(omOrderW, 0), (omOrderW, 0), (omOrderW, 0), (omOrderW, 0),
       (omOrderW, 0)]).2 = [true, true, true, false, false] ∧
    (OM.submitList omState0
      [(omOrderW, 0), (omOrderW, 0), (omOrderW, 0), (omOrderW, 0),
       (omOrderW, 0)]).1.orders_rejected = omState0.orders_rejected + 2 :=
  om_rate_limit_scene omState0 omOrderW omOrderW omOrderW omOrderW omOrderW
    0 0 0 0 0 rfl rfl (by norm_num) (by norm_num) (by norm_num) (by norm_num)
    (by norm_num) (fun v => by cases v <;> decide) (fun v => by cases v <;> decide)
